import Mathlib

set_option autoImplicit false

/-! Verification of the homogeneous collection serializer factory of
pydantic-xml (pydantic_xml/serializers/factories/homogeneous.py).

The factory builds one of three serializer variants (Text, Attribute,
Element) for a homogeneous collection field, depending on the field
location. The tree node abstraction, the value encoder and the qualified
name resolver are external collaborators of that module and are modelled
from the spec where noted. Scalar values flowing through the serializers
are represented by their raw textual form (String), since type coercion
of each string happens outside this module. -/

namespace PydanticXmlHomogeneous

/-- Modelled from the spec: the external mutable tree node abstraction
(XmlElementReader and XmlElementWriter, not under src). A node carries
optional text, an association list of attributes, and an ordered list of
children; a scalar child is represented by its tag together with its
optional text. -/
structure XmlNode where
  text : Option String
  attrs : List (String × String)
  children : List (String × Option String)
  deriving DecidableEq, Repr

def emptyNode : XmlNode := ⟨none, [], []⟩

/-- Modelled from the spec: set_text overwrites the node text. -/
def setText (n : XmlNode) (s : String) : XmlNode :=
  { n with text := some s }

/-- Modelled from the spec: pop_text destructively removes and returns the
node text. -/
def popText (n : XmlNode) : Option String × XmlNode :=
  (n.text, { n with text := none })

/-- Overwrite or insert an attribute in an association list. -/
def assocSet : List (String × String) → String → String → List (String × String)
  | [], k, v => [(k, v)]
  | (k0, v0) :: rest, k, v =>
    if k0 = k then (k, v) :: rest else (k0, v0) :: assocSet rest k v

/-- Remove the first binding of a key from an association list, returning
its value when present. -/
def assocPop : List (String × String) → String → Option String × List (String × String)
  | [], _ => (none, [])
  | (k0, v0) :: rest, k =>
    if k0 = k then (some v0, rest)
    else
      let p := assocPop rest k
      (p.1, (k0, v0) :: p.2)

/-- Modelled from the spec: set_attribute writes an attribute value
(overwrite semantics). -/
def setAttribute (n : XmlNode) (k v : String) : XmlNode :=
  { n with attrs := assocSet n.attrs k v }

/-- Modelled from the spec: pop_attrib destructively removes and returns
an attribute value by its qualified identifier. -/
def popAttrib (n : XmlNode) (k : String) : Option String × XmlNode :=
  let p := assocPop n.attrs k
  (p.1, { n with attrs := p.2 })

/-- Modelled from the spec: appending one new child element to a node. -/
def appendChild (n : XmlNode) (tag : String) (txt : Option String) : XmlNode :=
  { n with children := n.children ++ [(tag, txt)] }

/-- Tokenizer core of the Python str.split() model: the argument acc holds
the characters of the current token in reverse; a whitespace character
closes the current token, and empty fields are never emitted. -/
def wsTokensAux : List Char → List Char → List (List Char)
  | [], acc => if acc = [] then [] else [acc.reverse]
  | c :: cs, acc =>
    if c.isWhitespace then
      if acc = [] then wsTokensAux cs [] else acc.reverse :: wsTokensAux cs []
    else wsTokensAux cs (c :: acc)

/-- Model of Python str.split() with no arguments: split on runs of
whitespace, collapsing consecutive separators and ignoring leading and
trailing whitespace. -/
def pySplit (s : String) : List String :=
  (wsTokensAux s.data []).map fun cs => String.mk cs

/-- Model of the Python expression joining strings with a single space. -/
def spaceJoin : List String → String
  | [] => ""
  | [x] => x
  | x :: xs => x ++ " " ++ spaceJoin xs

/-- Abstraction of a Python type object as seen by the constructor guards:
whether it is a class and, when it is, whether it is a subclass of
BaseXmlModel and whether it is a subclass of tuple. -/
structure PyType where
  isClass : Bool
  isSubclassOfBaseXmlModel : Bool
  isSubclassOfTuple : Bool
  deriving DecidableEq, Repr

/-- Errors surfaced by the factory: ModelFieldError carries the model
name, the field name and a message; TypeError models the Python builtin
exception raised by issubclass on a non-class first argument. -/
inductive PyErr where
  | typeError (msg : String)
  | modelFieldError (model : String) (field : String) (msg : String)
  deriving DecidableEq, Repr

/-- Model of the Python builtin issubclass applied to BaseXmlModel:
raises TypeError when the first argument is not a class. -/
def issubclassBaseXmlModel (t : PyType) : Except PyErr Bool :=
  if t.isClass then .ok t.isSubclassOfBaseXmlModel
  else .error (.typeError "issubclass() arg 1 must be a class")

/-- Model of the Python builtin issubclass applied to tuple:
raises TypeError when the first argument is not a class. -/
def issubclassTuple (t : PyType) : Except PyErr Bool :=
  if t.isClass then .ok t.isSubclassOfTuple
  else .error (.typeError "issubclass() arg 1 must be a class")

/-- Location of a field, as dispatched on by the factory. -/
inductive Location where
  | ELEMENT
  | ATTRIBUTE
  | MISSING
  deriving DecidableEq, Repr

/-- Modelled from the spec: the shape classification produced by
PydanticShapeType.from_shape (not under src), reduced to the cases the
factory distinguishes. -/
inductive PydanticShapeType where
  | SINGULAR
  | HOMOGENEOUS
  | HETEROGENEOUS
  | MAPPING
  deriving DecidableEq, Repr

/-- Owning model description: its name and whether it has a custom root
type (a document-root model). -/
structure ModelDesc where
  name : String
  customRootType : Bool
  deriving DecidableEq, Repr

/-- Field descriptor consumed by the factory: field name, public alias,
the shape classification of the single item sub-descriptor, and the
declared item type. -/
structure ModelField where
  name : String
  aliasName : String
  itemShape : PydanticShapeType
  itemType : PyType
  deriving DecidableEq, Repr

/-- Serializer variants built by the factory, carrying the configuration
fixed at construction: the resolved attribute identifier for the
Attribute variant and the resolved element tag for the Element variant. -/
inductive HSerializer where
  | text
  | attr (attrName : String)
  | element (tag : String)
  deriving DecidableEq, Repr

/-- Constructor guard of TextSerializer, translated from the Python
condition: isclass(t) and issubclass(t, BaseXmlModel) or
issubclass(t, tuple), with Python operator precedence and
short-circuit evaluation. -/
def textScalarGuard (t : PyType) : Except PyErr Bool :=
  if t.isClass then
    match issubclassBaseXmlModel t with
    | .error e => .error e
    | .ok true => .ok true
    | .ok false => issubclassTuple t
  else issubclassTuple t

/-- Constructor of TextSerializer: rejects a non-scalar item type; an
exception raised by the guard itself propagates. -/
def textSerializerInit (model : ModelDesc) (mf : ModelField) : Except PyErr HSerializer :=
  match textScalarGuard mf.itemType with
  | .error e => .error e
  | .ok true => .error (.modelFieldError model.name mf.name "Inline list value should be of scalar type")
  | .ok false => .ok .text

/-- Constructor of AttributeSerializer: rejects a BaseXmlModel item type,
then resolves the qualified attribute identifier from the field name
(the external qualified name resolver is abstracted by the local name). -/
def attributeSerializerInit (model : ModelDesc) (mf : ModelField) : Except PyErr HSerializer :=
  match issubclassBaseXmlModel mf.itemType with
  | .error e => .error e
  | .ok true => .error (.modelFieldError model.name mf.name "Inline list value should be of scalar type")
  | .ok false => .ok (.attr mf.name)

/-- Constructor of ElementSerializer: resolves the element tag from the
entity name override or the field alias (the external qualified name
resolver is abstracted by the alias) and builds the inner serializer via
the external generic builder, which does not fail for the item types the
factory accepts. -/
def elementSerializerInit (model : ModelDesc) (mf : ModelField) : Except PyErr HSerializer :=
  let _ := model
  .ok (.element mf.aliasName)

/-- Translation of HomogeneousSerializerFactory.build: validate the item
shape, then the root-model location constraint, then dispatch on the
location to one of the three variant constructors. -/
def build (model : ModelDesc) (mf : ModelField) (fieldLocation : Location) : Except PyErr HSerializer :=
  if mf.itemShape = .HOMOGENEOUS ∨ mf.itemShape = .HETEROGENEOUS then
    .error (.modelFieldError model.name mf.name "collection elements can\x27t be of collection type")
  else if model.customRootType ∧ fieldLocation = .MISSING then
    .error (.modelFieldError model.name mf.name "root model collections should be marked as elements")
  else
    match fieldLocation with
    | .ELEMENT => elementSerializerInit model mf
    | .MISSING => textSerializerInit model mf
    | .ATTRIBUTE => attributeSerializerInit model mf

/-- Translation of TextSerializer.serialize: absent value, or skip_empty
with an empty collection, leaves the node untouched; otherwise every
element is encoded, joined with a single space, and written as the node
text. -/
def textSerialize (element : XmlNode) (value : Option (List String))
    (encoder : String → String) (skipEmpty : Bool) : XmlNode :=
  match value with
  | none => element
  | some v =>
    if skipEmpty && v.length == 0 then element
    else setText element (spaceJoin (v.map encoder))

/-- Translation of TextSerializer.deserialize: absent node gives absent;
absent text gives the empty sequence; otherwise the popped text is split
on whitespace. -/
def textDeserialize (element : Option XmlNode) : Option (List String) :=
  match element with
  | none => none
  | some e =>
    match (popText e).1 with
    | none => some []
    | some text => some (pySplit text)

/-- Translation of AttributeSerializer.serialize: same emptiness
short-circuit as the Text variant; otherwise the joined encoding is
written as the attribute value. -/
def attributeSerialize (attrName : String) (element : XmlNode) (value : Option (List String))
    (encoder : String → String) (skipEmpty : Bool) : XmlNode :=
  match value with
  | none => element
  | some v =>
    if skipEmpty && v.length == 0 then element
    else setAttribute element attrName (spaceJoin (v.map encoder))

/-- Translation of AttributeSerializer.deserialize: absent node gives
absent; absent attribute gives the empty sequence; otherwise the popped
attribute value is split on whitespace. -/
def attributeDeserialize (attrName : String) (element : Option XmlNode) : Option (List String) :=
  match element with
  | none => none
  | some e =>
    match (popAttrib e attrName).1 with
    | none => some []
    | some v => some (pySplit v)

/-- Modelled from the spec: the inner serializer the Element variant
obtains from the external generic builder for a scalar item type. Each
serialize call appends one new child with the resolved tag whose text is
the encoded value. -/
def innerScalarSerialize (tag : String) (element : XmlNode) (value : Option String)
    (encoder : String → String) : XmlNode :=
  appendChild element tag (value.map encoder)

/-- Modelled from the spec: the inner deserializer consumes the next
child when it matches the resolved tag and returns its text; it returns
absent when the next child does not match or no children remain. -/
def innerScalarDeserialize (tag : String) (element : XmlNode) : Option String × XmlNode :=
  match element.children with
  | [] => (none, element)
  | (t, txt) :: rest =>
    if t = tag then (txt, { element with children := rest })
    else (none, element)

/-- Translation of ElementSerializer.serialize: absent value, or
skip_empty with an empty collection, leaves the node untouched;
otherwise the inner serializer is invoked once per collection element in
iteration order, skipping an element only when skip_empty holds and that
element is absent. -/
def elementSerialize (tag : String) (element : XmlNode) (value : Option (List (Option String)))
    (encoder : String → String) (skipEmpty : Bool) : XmlNode :=
  match value with
  | none => element
  | some v =>
    if skipEmpty && v.length == 0 then element
    else
      v.foldl (fun el val =>
        if skipEmpty && val.isNone then el
        else innerScalarSerialize tag el val encoder) element

/-- Decode loop of ElementSerializer.deserialize acting on the child
list: repeatedly take the step of the inner deserializer, accumulating
values in call order until the first absent result, and return the
accumulated values together with the remaining children. -/
def collectRun (tag : String) : List (String × Option String) → List String × List (String × Option String)
  | [] => ([], [])
  | (t, txt) :: rest =>
    if t = tag then
      match txt with
      | some s =>
        let p := collectRun tag rest
        (s :: p.1, p.2)
      | none => ([], rest)
    else ([], (t, txt) :: rest)

/-- Translation of ElementSerializer.deserialize: absent node gives
absent; otherwise the decode loop runs and an empty accumulated result
is reported as absent (the Python expression result or None). -/
def elementDeserialize (tag : String) (element : Option XmlNode) : Option (List String) :=
  match element with
  | none => none
  | some e =>
    let result := (collectRun tag e.children).1
    if result = [] then none else some result

/-! Helper lemmas about the Python string splitting and joining models
and about the node operations. -/

theorem mk_data (s : String) : String.mk s.data = s := rfl

theorem wsTokensAux_token (t rest : List Char) :
    (∀ c ∈ t, c.isWhitespace = false) →
    ∀ acc, wsTokensAux (t ++ rest) acc = wsTokensAux rest (t.reverse ++ acc) := by
  induction t with
  | nil => intro _ acc; rfl
  | cons c t ih =>
    intro ht acc
    have hc : c.isWhitespace = false := ht c (by simp)
    have ht2 : ∀ x ∈ t, x.isWhitespace = false := fun x hx => ht x (by simp [hx])
    show wsTokensAux (c :: (t ++ rest)) acc = wsTokensAux rest ((c :: t).reverse ++ acc)
    rw [wsTokensAux, hc]
    simp only [Bool.false_eq_true, if_false]
    rw [ih ht2 (c :: acc)]
    simp [List.append_assoc]

theorem wsTokensAux_single (t : List Char) (hne : t ≠ [])
    (hws : ∀ c ∈ t, c.isWhitespace = false) :
    wsTokensAux t [] = [t] := by
  have h := wsTokensAux_token t [] hws []
  simp only [List.append_nil] at h
  rw [h, wsTokensAux]
  simp [hne]

theorem pySplit_spaceJoin (S : List String)
    (h : ∀ s ∈ S, s.data ≠ [] ∧ ∀ c ∈ s.data, c.isWhitespace = false) :
    pySplit (spaceJoin S) = S := by
  induction S with
  | nil => rfl
  | cons x S ih =>
    obtain ⟨hne, hws⟩ := h x (by simp)
    cases S with
    | nil =>
      show pySplit x = [x]
      rw [pySplit, wsTokensAux_single x.data hne hws]
      simp [mk_data]
    | cons y S2 =>
      have hrest : ∀ s ∈ y :: S2, s.data ≠ [] ∧ ∀ c ∈ s.data, c.isWhitespace = false :=
        fun s hs => h s (by simp [hs])
      have ihr := ih hrest
      show pySplit (x ++ " " ++ spaceJoin (y :: S2)) = x :: y :: S2
      rw [pySplit]
      have hdata : (x ++ " " ++ spaceJoin (y :: S2)).data =
          x.data ++ (' ' :: (spaceJoin (y :: S2)).data) := by
        simp [String.data_append]
      rw [hdata, wsTokensAux_token x.data (' ' :: (spaceJoin (y :: S2)).data) hws []]
      rw [wsTokensAux]
      have hsp : (' ').isWhitespace = true := rfl
      rw [hsp]
      simp only [if_true, List.append_nil]
      have hrne : x.data.reverse ≠ [] := by
        simpa [List.reverse_eq_nil_iff] using hne
      rw [if_neg hrne]
      simp only [List.map_cons, List.reverse_reverse, mk_data]
      rw [show (wsTokensAux (spaceJoin (y :: S2)).data []).map (fun cs => String.mk cs) =
        pySplit (spaceJoin (y :: S2)) from rfl, ihr]

theorem wsTokensAux_tokens_good (cs : List Char) :
    ∀ acc, (∀ c ∈ acc, c.isWhitespace = false) →
    ∀ l ∈ wsTokensAux cs acc, l ≠ [] ∧ ∀ c ∈ l, c.isWhitespace = false := by
  induction cs with
  | nil =>
    intro acc hacc l hl
    rw [wsTokensAux] at hl
    by_cases hae : acc = []
    · simp [hae] at hl
    · simp [hae] at hl
      subst hl
      constructor
      · simpa [List.reverse_eq_nil_iff] using hae
      · intro c hc
        exact hacc c (List.mem_reverse.mp hc)
  | cons c cs ih =>
    intro acc hacc l hl
    rw [wsTokensAux] at hl
    by_cases hw : c.isWhitespace = true
    · rw [if_pos hw] at hl
      by_cases hae : acc = []
      · rw [if_pos hae] at hl
        exact ih [] (by simp) l hl
      · rw [if_neg hae] at hl
        rcases List.mem_cons.mp hl with hl | hl
        · subst hl
          constructor
          · simpa [List.reverse_eq_nil_iff] using hae
          · intro d hd
            exact hacc d (List.mem_reverse.mp hd)
        · exact ih [] (by simp) l hl
    · rw [if_neg hw] at hl
      refine ih (c :: acc) ?_ l hl
      intro d hd
      rcases List.mem_cons.mp hd with hd | hd
      · subst hd
        exact Bool.not_eq_true _ ▸ (by simpa using hw)
      · exact hacc d hd

theorem pySplit_tokens_good (t : String) :
    ∀ s ∈ pySplit t, s.data ≠ [] ∧ ∀ c ∈ s.data, c.isWhitespace = false := by
  intro s hs
  rw [pySplit] at hs
  rcases List.mem_map.mp hs with ⟨l, hl, hls⟩
  have hgood := wsTokensAux_tokens_good t.data [] (by simp) l hl
  subst hls
  exact hgood

theorem assocPop_assocSet (l : List (String × String)) (k v : String) :
    (assocPop (assocSet l k v) k).1 = some v := by
  induction l with
  | nil => simp [assocSet, assocPop]
  | cons p rest ih =>
    by_cases hk : p.1 = k
    · simp [assocSet, hk, assocPop]
    · simp [assocSet, hk, assocPop, ih]

theorem assocPop_not_mem (l : List (String × String)) (k : String)
    (h : ∀ p ∈ l, p.1 ≠ k) : (assocPop l k).1 = none := by
  induction l with
  | nil => rfl
  | cons p rest ih =>
    have hp : p.1 ≠ k := h p (by simp)
    simp [assocPop, hp]
    exact ih fun q hq => h q (by simp [hq])

theorem foldl_inner_all (tag : String) (encoder : String → String) :
    ∀ (v : List (Option String)) (n : XmlNode),
    v.foldl (fun el val => innerScalarSerialize tag el val encoder) n =
      { n with children := n.children ++ v.map fun val => (tag, val.map encoder) } := by
  intro v
  induction v with
  | nil => intro n; simp
  | cons val v ih =>
    intro n
    have h1 : List.foldl (fun el val => innerScalarSerialize tag el val encoder) n (val :: v) =
        List.foldl (fun el val => innerScalarSerialize tag el val encoder)
          (appendChild n tag (val.map encoder)) v := rfl
    rw [h1, ih]
    simp [appendChild, List.append_assoc]

theorem foldl_inner_skip (tag : String) (encoder : String → String) :
    ∀ (v : List (Option String)) (n : XmlNode),
    v.foldl (fun el val => if val.isNone then el else innerScalarSerialize tag el val encoder) n =
      { n with children := n.children ++ (v.filterMap id).map fun s => (tag, some (encoder s)) } := by
  intro v
  induction v with
  | nil => intro n; simp
  | cons val v ih =>
    intro n
    cases val with
    | none =>
      have h1 : List.foldl
          (fun el val => if val.isNone then el else innerScalarSerialize tag el val encoder)
          n (none :: v) =
        List.foldl
          (fun el val => if val.isNone then el else innerScalarSerialize tag el val encoder)
          n v := rfl
      rw [h1, ih]
      rfl
    | some s =>
      have h1 : List.foldl
          (fun el val => if val.isNone then el else innerScalarSerialize tag el val encoder)
          n (some s :: v) =
        List.foldl
          (fun el val => if val.isNone then el else innerScalarSerialize tag el val encoder)
          (appendChild n tag (some (encoder s))) v := rfl
      have h2 : List.filterMap id (some s :: v) = s :: List.filterMap id v := rfl
      rw [h1, ih, h2]
      simp [appendChild, List.append_assoc]

theorem collectRun_all (tag : String) :
    ∀ T : List String, collectRun tag (T.map fun s => (tag, some s)) = (T, []) := by
  intro T
  induction T with
  | nil => rfl
  | cons x T ih => simp [collectRun, ih]

theorem collectRun_run_append (tag : String) (rest : List (String × Option String)) :
    ∀ vs : List String,
    collectRun tag ((vs.map fun v => (tag, some v)) ++ rest) =
      (vs ++ (collectRun tag rest).1, (collectRun tag rest).2) := by
  intro vs
  induction vs with
  | nil => simp
  | cons x vs ih => simp [collectRun, ih]

theorem collectRun_stop (tag : String) (rest : List (String × Option String))
    (hstop : rest = [] ∨ ∃ t c rest2, rest = (t, c) :: rest2 ∧ t ≠ tag) :
    collectRun tag rest = ([], rest) := by
  rcases hstop with h | ⟨t, c, rest2, hr, ht⟩
  · subst h; rfl
  · subst hr; simp [collectRun, ht]

/-! Claim theorems. -/

/-- C1: for every collection field whose single item sub-descriptor shape
classifies as a collection (homogeneous or heterogeneous), build returns
the ModelFieldError carrying the model name, the field name and the
nested-collection message, for every location: the shape check runs
ahead of every variant constructor, so no variant is built. -/
theorem C1_nested_collection_rejected (model : ModelDesc) (mf : ModelField) (loc : Location)
    (h : mf.itemShape = PydanticShapeType.HOMOGENEOUS ∨
      mf.itemShape = PydanticShapeType.HETEROGENEOUS) :
    build model mf loc =
      .error (.modelFieldError model.name mf.name
        "collection elements can\x27t be of collection type") := by
  unfold build
  rw [if_pos h]

/-- Witness for C1 at a concrete homogeneous-of-homogeneous field. -/
theorem C1_witness :
    build ⟨"M", false⟩ ⟨"f", "f", PydanticShapeType.HOMOGENEOUS, ⟨true, false, false⟩⟩
        Location.MISSING =
      .error (.modelFieldError "M" "f" "collection elements can\x27t be of collection type") :=
  C1_nested_collection_rejected _ _ _ (Or.inl rfl)

/-- C2 counterexample: a document-root model with location MISSING whose
item sub-descriptor itself classifies as a collection gets the
nested-collection error, not the root-collection error the claim
requires for every root-model collection field at MISSING. -/
theorem C2_counterexample :
    build ⟨"M", true⟩ ⟨"f", "f", PydanticShapeType.HOMOGENEOUS, ⟨true, false, false⟩⟩
        Location.MISSING =
      .error (.modelFieldError "M" "f" "collection elements can\x27t be of collection type") ∧
    PyErr.modelFieldError "M" "f" "collection elements can\x27t be of collection type" ≠
      PyErr.modelFieldError "M" "f" "root model collections should be marked as elements" :=
  ⟨rfl, by decide⟩

/-- C2 (amended): when the item sub-descriptor shape is not itself a
collection, a document-root model with location MISSING is rejected with
the root-collection ModelFieldError and no variant is constructed, while
for location ELEMENT or ATTRIBUTE that error is never produced. -/
theorem C2_root_missing_rejected (model : ModelDesc) (mf : ModelField)
    (hroot : model.customRootType = true)
    (hshape : ¬(mf.itemShape = PydanticShapeType.HOMOGENEOUS ∨
      mf.itemShape = PydanticShapeType.HETEROGENEOUS)) :
    build model mf Location.MISSING =
      .error (.modelFieldError model.name mf.name
        "root model collections should be marked as elements") ∧
    ∀ loc : Location, (loc = Location.ELEMENT ∨ loc = Location.ATTRIBUTE) →
      build model mf loc ≠
        .error (.modelFieldError model.name mf.name
          "root model collections should be marked as elements") := by
  constructor
  · unfold build
    rw [if_neg hshape, if_pos ⟨hroot, rfl⟩]
  · intro loc hloc
    unfold build
    rw [if_neg hshape]
    have hcond : ¬(model.customRootType = true ∧ loc = Location.MISSING) := by
      rcases hloc with h | h <;> subst h <;> rintro ⟨_, h2⟩ <;> exact Location.noConfusion h2
    rw [if_neg hcond]
    rcases hloc with h | h <;> subst h
    · simp [elementSerializerInit]
    · cases hc : mf.itemType.isClass with
      | false => simp [attributeSerializerInit, issubclassBaseXmlModel, hc]
      | true =>
        cases hm : mf.itemType.isSubclassOfBaseXmlModel with
        | false => simp [attributeSerializerInit, issubclassBaseXmlModel, hc, hm]
        | true => simp [attributeSerializerInit, issubclassBaseXmlModel, hc, hm]

/-- Witness for the amended C2 at a concrete root model with a scalar
item type. -/
theorem C2_witness :
    build ⟨"M", true⟩ ⟨"f", "f", PydanticShapeType.SINGULAR, ⟨true, false, false⟩⟩
        Location.MISSING =
      .error (.modelFieldError "M" "f" "root model collections should be marked as elements") :=
  (C2_root_missing_rejected ⟨"M", true⟩ ⟨"f", "f", PydanticShapeType.SINGULAR, ⟨true, false, false⟩⟩
    rfl (by decide)).1

/-- C3 counterexample: for a class item type that is a subclass of tuple
but not of BaseXmlModel, AttributeSerializer construction succeeds,
while TextSerializer construction rejects it: the Attribute variant does
not apply the same tuple rejection the claim states. -/
theorem C3_counterexample :
    attributeSerializerInit ⟨"M", false⟩
        ⟨"f", "f", PydanticShapeType.SINGULAR, ⟨true, false, true⟩⟩ =
      .ok (.attr "f") ∧
    textSerializerInit ⟨"M", false⟩
        ⟨"f", "f", PydanticShapeType.SINGULAR, ⟨true, false, true⟩⟩ =
      .error (.modelFieldError "M" "f" "Inline list value should be of scalar type") :=
  ⟨rfl, rfl⟩

/-- C3 (amended): AttributeSerializer construction rejects only
document-model item types: for a class item type it raises the
ModelFieldError with the scalar-type message exactly when the item type
is a subclass of BaseXmlModel, and it accepts every other class item
type, fixed-size tuples included. -/
theorem C3_attr_rejects_models_only (model : ModelDesc) (mf : ModelField)
    (hc : mf.itemType.isClass = true) :
    (attributeSerializerInit model mf =
        .error (.modelFieldError model.name mf.name
          "Inline list value should be of scalar type") ↔
      mf.itemType.isSubclassOfBaseXmlModel = true) ∧
    (mf.itemType.isSubclassOfBaseXmlModel = false →
      attributeSerializerInit model mf = .ok (.attr mf.name)) := by
  cases hm : mf.itemType.isSubclassOfBaseXmlModel with
  | false => simp [attributeSerializerInit, issubclassBaseXmlModel, hc, hm]
  | true => simp [attributeSerializerInit, issubclassBaseXmlModel, hc, hm]

/-- Witness for the amended C3 at a concrete document-model item type. -/
theorem C3_witness :
    attributeSerializerInit ⟨"M", false⟩
        ⟨"f", "f", PydanticShapeType.SINGULAR, ⟨true, true, false⟩⟩ =
      .error (.modelFieldError "M" "f" "Inline list value should be of scalar type") :=
  (C3_attr_rejects_models_only ⟨"M", false⟩
    ⟨"f", "f", PydanticShapeType.SINGULAR, ⟨true, true, false⟩⟩ rfl).1.mpr rfl

/-- C4 counterexample: a scalar string containing a space does not
round-trip through the Text variant, and the empty sequence does not
round-trip through the Element variant (it deserializes to absent). -/
theorem C4_counterexample :
    (textDeserialize (some (textSerialize emptyNode (some ["a b"]) id false)) =
        some ["a", "b"] ∧
      (["a", "b"] : List String) ≠ ["a b"]) ∧
    (elementDeserialize "item"
        (some (elementSerialize "item" emptyNode (some []) id false)) = none ∧
      (none : Option (List String)) ≠ some []) :=
  ⟨⟨by decide, by decide⟩, ⟨rfl, by decide⟩⟩

/-- C4 (amended): for every sequence S of nonempty whitespace-free
scalar strings, deserializing the result of serializing S onto an empty
node with the identity encoder and skipEmpty false yields S verbatim for
the Text and Attribute variants, and for the Element variant with a
scalar item type whenever S is nonempty (an empty S deserializes to
absent). -/
theorem C4_round_trip (attrName : String) (S : List String)
    (h : ∀ s ∈ S, s.data ≠ [] ∧ ∀ c ∈ s.data, c.isWhitespace = false) :
    textDeserialize (some (textSerialize emptyNode (some S) id false)) = some S ∧
    attributeDeserialize attrName
      (some (attributeSerialize attrName emptyNode (some S) id false)) = some S ∧
    (S ≠ [] →
      elementDeserialize "item"
        (some (elementSerialize "item" emptyNode (some (S.map some)) id false)) = some S) := by
  refine ⟨?_, ?_, ?_⟩
  · simp [textSerialize, textDeserialize, setText, popText, pySplit_spaceJoin S h]
  · simp [attributeSerialize, attributeDeserialize, setAttribute, popAttrib, assocSet, assocPop,
      emptyNode, pySplit_spaceJoin S h]
  · intro hS
    have h1 : elementSerialize "item" emptyNode (some (S.map some)) id false =
        { emptyNode with children := S.map fun s => ("item", some s) } := by
      simp [elementSerialize, foldl_inner_all, emptyNode, List.map_map, Function.comp]
    rw [h1]
    simp [elementDeserialize, emptyNode, collectRun_all, hS]

/-- Witness for the amended C4 at a concrete two-token sequence. -/
theorem C4_witness :
    textDeserialize (some (textSerialize emptyNode (some ["ab", "c"]) id false)) =
      some ["ab", "c"] ∧
    elementDeserialize "item"
      (some (elementSerialize "item" emptyNode (some (["ab", "c"].map some)) id false)) =
      some ["ab", "c"] :=
  ⟨(C4_round_trip "f" ["ab", "c"] (by decide)).1,
    (C4_round_trip "f" ["ab", "c"] (by decide)).2.2 (by decide)⟩

/-- C5: for the Text and Attribute variants, deserialize returns exactly
the whitespace split of the stored text or attribute value, raw and
uncoerced; the split collapses separator runs and drops leading and
trailing whitespace, every returned string being nonempty and
whitespace-free, with the content a-spaces-b-tab-c giving a, b, c. -/
theorem C5_whitespace_split (n : XmlNode) (attrName t : String) :
    textDeserialize (some (setText n t)) = some (pySplit t) ∧
    attributeDeserialize attrName (some (setAttribute n attrName t)) = some (pySplit t) ∧
    pySplit "a   b\tc" = ["a", "b", "c"] ∧
    pySplit "  a   b\tc  " = ["a", "b", "c"] ∧
    ∀ s ∈ pySplit t, s.data ≠ [] ∧ ∀ c ∈ s.data, c.isWhitespace = false := by
  refine ⟨rfl, ?_, by decide, by decide, pySplit_tokens_good t⟩
  simp [attributeDeserialize, setAttribute, popAttrib, assocPop_assocSet]

/-- C6 counterexample: the Element variant deserializing a present node
with no matching children yields absent, not the empty sequence. -/
theorem C6_counterexample :
    elementDeserialize "item" (some emptyNode) = none ∧
    (none : Option (List String)) ≠ some [] :=
  ⟨rfl, by decide⟩

/-- C6 (amended): against a present node with no corresponding data the
Text and Attribute variants yield the empty sequence while the Element
variant yields absent; against an absent node every variant yields
absent. -/
theorem C6_empty_vs_absent (n : XmlNode) (attrName tag : String)
    (htext : n.text = none)
    (hattr : ∀ p ∈ n.attrs, p.1 ≠ attrName)
    (hchild : n.children = []) :
    textDeserialize (some n) = some [] ∧
    attributeDeserialize attrName (some n) = some [] ∧
    elementDeserialize tag (some n) = none ∧
    textDeserialize none = none ∧
    attributeDeserialize attrName none = none ∧
    elementDeserialize tag none = none := by
  refine ⟨?_, ?_, ?_, rfl, rfl, rfl⟩
  · simp [textDeserialize, popText, htext]
  · simp [attributeDeserialize, popAttrib, assocPop_not_mem n.attrs attrName hattr]
  · simp [elementDeserialize, hchild, collectRun]

/-- Witness for the amended C6 at the empty node. -/
theorem C6_witness :
    textDeserialize (some emptyNode) = some [] ∧
    attributeDeserialize "a" (some emptyNode) = some [] ∧
    elementDeserialize "item" (some emptyNode) = none ∧
    textDeserialize none = none ∧
    attributeDeserialize "a" none = none ∧
    elementDeserialize "item" none = none :=
  C6_empty_vs_absent emptyNode "a" "item" rfl (by simp [emptyNode]) rfl

/-- C7: against a present node whose children start with a contiguous
run of matching scalar children followed by nothing or by a
non-matching child, the Element variant deserialize accumulates the run
values in call order and returns them, or absent when the run is
empty. -/
theorem C7_element_until_absent (tag : String) (txt : Option String)
    (attrs : List (String × String)) (vs : List String)
    (rest : List (String × Option String))
    (hstop : rest = [] ∨ ∃ t c rest2, rest = (t, c) :: rest2 ∧ t ≠ tag) :
    elementDeserialize tag (some ⟨txt, attrs, (vs.map fun v => (tag, some v)) ++ rest⟩) =
      if vs = [] then none else some vs := by
  simp only [elementDeserialize]
  rw [collectRun_run_append, collectRun_stop tag rest hstop]
  simp

/-- Witness for C7 at a run of two matching children followed by a
non-matching one. -/
theorem C7_witness :
    elementDeserialize "item"
      (some ⟨none, [], ((["a", "b"].map fun v => ("item", some v)) ++ [("other", some "c")])⟩) =
      some ["a", "b"] := by
  simpa using C7_element_until_absent "item" none [] ["a", "b"] [("other", some "c")]
    (Or.inr ⟨"other", some "c", [], rfl, by decide⟩)

/-- C8: for every variant, serialize with an absent value, or with
skipEmpty true and an empty collection, performs no write at all and
returns the node unchanged. -/
theorem C8_no_write (attrName tag : String) (n : XmlNode) (encoder : String → String)
    (skipEmpty : Bool) :
    textSerialize n none encoder skipEmpty = n ∧
    attributeSerialize attrName n none encoder skipEmpty = n ∧
    elementSerialize tag n none encoder skipEmpty = n ∧
    textSerialize n (some []) encoder true = n ∧
    attributeSerialize attrName n (some []) encoder true = n ∧
    elementSerialize tag n (some []) encoder true = n :=
  ⟨rfl, rfl, rfl, rfl, rfl, rfl⟩

/-- C9: the Element variant preserves order exactly: with skipEmpty
false serialize appends one child per collection element in iteration
order; with skipEmpty true it appends one child per present element in
iteration order, skipping exactly the absent ones; and serializing three
values onto an empty node then deserializing yields them back in the
same order. -/
theorem C9_element_order (tag : String) (n : XmlNode) (encoder : String → String)
    (v : List (Option String)) (x y z : String) :
    elementSerialize tag n (some v) encoder false =
      { n with children := n.children ++ v.map fun val => (tag, val.map encoder) } ∧
    elementSerialize tag n (some v) encoder true =
      (if v.length == 0 then n
        else { n with children :=
          n.children ++ (v.filterMap id).map fun s => (tag, some (encoder s)) }) ∧
    elementDeserialize tag
        (some (elementSerialize tag emptyNode (some ([x, y, z].map some)) id false)) =
      some [x, y, z] := by
  refine ⟨?_, ?_, ?_⟩
  · have h1 : elementSerialize tag n (some v) encoder false =
        v.foldl (fun el val => innerScalarSerialize tag el val encoder) n := by
      simp [elementSerialize]
    rw [h1, foldl_inner_all]
  · cases v with
    | nil => simp [elementSerialize]
    | cons v0 vr =>
      have h1 : elementSerialize tag n (some (v0 :: vr)) encoder true =
          (v0 :: vr).foldl
            (fun el val => if val.isNone then el else innerScalarSerialize tag el val encoder)
            n := by
        simp [elementSerialize]
      rw [h1, foldl_inner_skip]
      simp
  · have h1 : elementSerialize tag emptyNode (some ([x, y, z].map some)) id false =
        { emptyNode with children := [x, y, z].map fun s => (tag, some s) } := by
      simp [elementSerialize, innerScalarSerialize, appendChild, emptyNode]
    rw [h1]
    simp [elementDeserialize, emptyNode, collectRun]

/-- C10: the tuple subtype test of the TextSerializer guard is not
protected by the class check, so for every non-class item type the
constructor raises the TypeError coming from issubclass instead of
accepting the field or raising the documented ModelFieldError. -/
theorem C10_nonclass_guard_typeerror (model : ModelDesc) (mf : ModelField)
    (h : mf.itemType.isClass = false) :
    textSerializerInit model mf = .error (.typeError "issubclass() arg 1 must be a class") := by
  simp [textSerializerInit, textScalarGuard, issubclassTuple, h]

/-- Witness for C10 at a concrete non-class item type. -/
theorem C10_witness :
    textSerializerInit ⟨"M", false⟩
        ⟨"f", "f", PydanticShapeType.SINGULAR, ⟨false, false, false⟩⟩ =
      .error (.typeError "issubclass() arg 1 must be a class") :=
  C10_nonclass_guard_typeerror _ _ rfl

end PydanticXmlHomogeneous
